import Mathlib

/-!
Verification development for the `robot.tidy` command line tool
(src/robot/tidy.py): a shallow embedding of the orchestration core
(argument validation, single-file / in-place / recursive transforms and
the suite-structure walker), together with theorems about it.

External collaborators (the data-file parser `Model`, the renderer
`DataFileWriter`, the operating system's file system) are modelled
explicitly: the file system as an association list of regular files plus
a set of directories, the parser and renderer as components of an
environment record.
-/

set_option maxHeartbeats 1000000
set_option linter.unnecessarySeqFocus false

instance {ε α : Type} [DecidableEq ε] [DecidableEq α] :
    DecidableEq (Except ε α) := fun a b =>
  match a, b with
  | .error e, .error f =>
    if h : e = f then isTrue (by rw [h])
    else isFalse (fun hc => by cases hc; exact h rfl)
  | .error _, .ok _ => isFalse (fun hc => by cases hc)
  | .ok _, .error _ => isFalse (fun hc => by cases hc)
  | .ok x, .ok y =>
    if h : x = y then isTrue (by rw [h])
    else isFalse (fun hc => by cases hc; exact h rfl)

/-- A single-quote character as a string, used to build the exact
error-message texts of the source. -/
def squote : String := String.singleton (Char.ofNat 39)

/-- Model of the file system seen by tidy: regular files with their
contents (an association list, later entries shadowed by earlier ones)
and a set of existing directories. -/
structure FS where
  files : List (String × String)
  dirs : List String
deriving DecidableEq, Repr

/-- Content of the regular file at `p`, if it exists (`open(p).read()`). -/
def FS.read (fs : FS) (p : String) : Option String :=
  (fs.files.find? (fun e => e.1 == p)).map (fun e => e.2)

/-- Model of `os.path.isfile`. -/
def FS.isfile (fs : FS) (p : String) : Bool :=
  (fs.read p).isSome

/-- Model of `os.path.isdir`. -/
def FS.isdir (fs : FS) (p : String) : Bool :=
  fs.dirs.contains p

/-- Model of `os.remove`. -/
def FS.removeFile (fs : FS) (p : String) : FS :=
  ⟨fs.files.filter (fun e => e.1 != p), fs.dirs⟩

/-- Model of creating/overwriting the file at `p` with content `c`. -/
def FS.writeFile (fs : FS) (p c : String) : FS :=
  ⟨(p, c) :: fs.files.filter (fun e => e.1 != p), fs.dirs⟩

/-- Model of Python `str.upper` (ASCII as used by the tool). -/
def pyUpper (s : String) : String := String.mk (s.data.map Char.toUpper)

/-- Model of Python `str.lower` (ASCII as used by the tool). -/
def pyLower (s : String) : String := String.mk (s.data.map Char.toLower)

/-- Python whitespace as stripped by `str.strip` (ASCII subset). -/
def isPySpace (c : Char) : Bool :=
  c == ' ' || c == '\t' || c == '\n' || c == '\r' ||
    Char.ofNat 11 == c || Char.ofNat 12 == c

/-- Model of Python `str.strip()`. -/
def pyStrip (s : String) : String :=
  String.mk (((s.data.dropWhile isPySpace).reverse.dropWhile isPySpace).reverse)

/-- Value of a nonempty all-digit character list, `none` otherwise. -/
def digitsToNat (cs : List Char) : Option Nat :=
  if cs.isEmpty then none
  else if cs.all Char.isDigit then
    some (cs.foldl (fun a c => a * 10 + (c.toNat - 48)) 0)
  else none

/-- Model of Python `int(str)`: strip surrounding whitespace, optional
sign, then decimal digits (digit-grouping underscores are not modelled). -/
def pyParseInt (s : String) : Option Int :=
  match (pyStrip s).data with
  | [] => none
  | c :: rest =>
    if c == '+' then (digitsToNat rest).map Int.ofNat
    else if c == '-' then (digitsToNat rest).map (fun n => -(Int.ofNat n))
    else (digitsToNat (c :: rest)).map Int.ofNat

/-- Index of the last occurrence of `c` in `cs`, counting from `i`. -/
def lastIndexOfAux (c : Char) : List Char → Nat → Option Nat
  | [], _ => none
  | x :: xs, i =>
    match lastIndexOfAux c xs (i + 1) with
    | some j => some j
    | none => if x == c then some i else none

/-- Index of the last occurrence of `c` in `cs`. -/
def lastIndexOf (c : Char) (cs : List Char) : Option Nat :=
  lastIndexOfAux c cs 0

/-- Model of `os.path.splitext(p)[1][1:]` (posix rules): the extension
after the last dot, provided that dot lies after the last separator and
the base name does not consist solely of leading dots up to it. -/
def splitextExt (p : String) : String :=
  let cs := p.data
  match lastIndexOf '.' cs with
  | none => ""
  | some d =>
    let start := match lastIndexOf '/' cs with
      | none => 0
      | some s => s + 1
    if start ≤ d ∧ ((cs.drop start).take (d - start)).any (fun ch => ch != '.')
    then String.mk (cs.drop (d + 1))
    else ""

/-- `DataError` message raised by `_recursive_and_inplace_together`. -/
def conflictingModesMsg : String :=
  "--recursive and --inplace can not be used together."

/-- First `DataError` message of `_recursive_mode_arguments`. -/
def recursiveCountMsg : String :=
  "--recursive requires exactly one argument."

/-- Second `DataError` message of `_recursive_mode_arguments`. -/
def recursiveDirMsg : String :=
  "--recursive requires input to be a directory."

/-- `DataError` message of `_inplace_mode_arguments`. -/
def inplaceFilesMsg : String :=
  "--inplace requires inputs to be files."

/-- First `DataError` message of `_default_mode_arguments`. -/
def defaultCountMsg : String :=
  "Default mode requires 1 or 2 arguments."

/-- Second `DataError` message of `_default_mode_arguments`. -/
def defaultFileMsg : String :=
  "Default mode requires input to be a file."

/-- `DataError` message of `ArgumentValidator.format`. -/
def invalidFormatMsg (f : String) : String :=
  "Invalid format " ++ squote ++ f ++ squote ++ "."

/-- `DataError` message of `ArgumentValidator.line_sep`. -/
def invalidLineSepMsg (s : String) : String :=
  "Invalid line separator " ++ squote ++ s ++ squote ++ "."

/-- `DataError` message of `ArgumentValidator.spacecount`. -/
def invalidSpaceCountMsg : String :=
  "--spacecount must be an integer greater than 1."

namespace ArgumentValidator

/-- `ArgumentValidator._recursive_mode_arguments`. -/
def recursiveModeArguments (fs : FS) (args : List String) : Except String Unit :=
  if args.length ≠ 1 then .error recursiveCountMsg
  else if !fs.isdir (args.headD "") then .error recursiveDirMsg
  else .ok ()

/-- `ArgumentValidator._inplace_mode_arguments`. -/
def inplaceModeArguments (fs : FS) (args : List String) : Except String Unit :=
  if !args.all fs.isfile then .error inplaceFilesMsg
  else .ok ()

/-- `ArgumentValidator._default_mode_arguments`. -/
def defaultModeArguments (fs : FS) (args : List String) : Except String Unit :=
  if args.length ≠ 1 ∧ args.length ≠ 2 then .error defaultCountMsg
  else if !fs.isfile (args.headD "") then .error defaultFileMsg
  else .ok ()

/-- `ArgumentValidator.mode_and_args`: dispatch on the
`(recursive, inplace)` pair, run the row's check, and return the pair
when the check passes. -/
def mode_and_args (fs : FS) (args : List String) (recursive inplace : Bool) :
    Except String (Bool × Bool) :=
  let check : Except String Unit :=
    match recursive, inplace with
    | true, true => .error conflictingModesMsg
    | true, false => recursiveModeArguments fs args
    | false, true => inplaceModeArguments fs args
    | false, false => defaultModeArguments fs args
  match check with
  | .error e => .error e
  | .ok _ => .ok (recursive, inplace)

/-- `ArgumentValidator.format`: `none` models Python `None`
(`UNSPECIFIED`); an empty `format` string models an absent/falsy
`--format` option. -/
def format (args : List String) (format : String) (inplace recursive : Bool) :
    Except String (Option String) :=
  let fmt : Option String :=
    if format == "" then
      (if inplace || recursive || args.length < 2 then none
       else some (splitextExt (args.getD 1 "")))
    else some format
  match fmt with
  | none => .ok none
  | some f =>
    let fu := pyUpper f
    if fu == "TXT" || fu == "ROBOT" then .ok (some fu)
    else .error (invalidFormatMsg fu)

/-- `ArgumentValidator.line_sep`: `nativeSep` stands for `os.linesep`;
an empty `lineseparator` models an absent/falsy option value. -/
def line_sep (nativeSep : String) (lineseparator : String) : Except String String :=
  let key := pyLower (if lineseparator == "" then "native" else lineseparator)
  if key == "native" then .ok nativeSep
  else if key == "windows" then .ok "\r\n"
  else if key == "unix" then .ok "\n"
  else .error (invalidLineSepMsg lineseparator)

/-- A raw Python option value as the validator may receive it:
`None`, an integer, or a string. -/
inductive PyVal where
  | pnone
  | pint (n : Int)
  | pstr (s : String)
deriving DecidableEq, Repr

/-- Python truthiness of a raw option value. -/
def PyVal.truthy : PyVal → Bool
  | .pnone => false
  | .pint n => n != 0
  | .pstr s => s != ""

/-- Python `int(...)` applied to a raw option value (`None` raises). -/
def PyVal.toInt : PyVal → Option Int
  | .pnone => none
  | .pint n => some n
  | .pstr s => pyParseInt s

/-- `ArgumentValidator.spacecount`: `int(...)` must succeed and yield a
value of at least 2, both failures raising the same `DataError`. -/
def spacecount (v : PyVal) : Except String Int :=
  match v.toInt with
  | none => .error invalidSpaceCountMsg
  | some n => if n < 2 then .error invalidSpaceCountMsg else .ok n

end ArgumentValidator

/-- The space-count branch of `TidyCommandLine.validate`: a falsy raw
value pops the option (no override, `none`), any other value goes
through `ArgumentValidator.spacecount`. -/
def validateSpacecount (v : ArgumentValidator.PyVal) : Except String (Option Int) :=
  if !v.truthy then .ok none
  else (ArgumentValidator.spacecount v).map some

/-- Outcome of the spec's four-row mode truth table, written from the
spec's words: row `(true, true)` never passes; `(true, false)` needs
exactly one path naming an existing directory; `(false, true)` needs
every path to name an existing file; `(false, false)` needs one or two
paths with the first naming an existing file. -/
def modeOutcomeOk (fs : FS) (args : List String) : Bool × Bool → Bool
  | (true, true) => false
  | (true, false) => args.length == 1 && fs.isdir (args.headD "")
  | (false, true) => args.all fs.isfile
  | (false, false) =>
    (args.length == 1 || args.length == 2) && fs.isfile (args.headD "")

/-- The option dictionary built by `Tidy.__init__` and handed to the
renderer. -/
structure TidyOptions where
  format : String
  pipeSeparated : Bool
  txtSeparatingSpaces : Int
  lineSeparator : String
deriving DecidableEq, Repr

/-- External collaborators of the orchestrator: the parser (applied to a
file's content, as `Model(path)` reads and parses the file) and the
renderer (`DataFileWriter(...).write`, producing the full output text
for a model under the active options). -/
structure Env (μ : Type) where
  parse : String → Except String μ
  render : μ → TidyOptions → String

/-- `Model(path)`: read the file at `path` and parse its content; a
missing file is a `DataError` as well. -/
def parsePath {μ : Type} (env : Env μ) (fs : FS) (p : String) : Except String μ :=
  match fs.read p with
  | none => .error ("Data source does not exist: " ++ p)
  | some content => env.parse content

/-- Observable file-system effects of a run, in order. -/
inductive Ev where
  | parse (p : String)
  | remove (p : String)
  | write (p : String)
deriving DecidableEq, Repr

/-- State of a (possibly aborted) multi-file run: the events so far, the
file system, and the pending fatal error, if one was raised. -/
structure RunResult where
  events : List Ev
  fs : FS
  err : Option String
deriving DecidableEq, Repr

/-- One iteration of the loop body of `Tidy.inplace` for one path:
parse the file fully, then remove it, then write the rendered model back
to the same path.  A pending error skips the step (the exception has
already aborted the run); a parse failure raises before the removal. -/
def inplaceStep {μ : Type} (env : Env μ) (o : TidyOptions) (st : RunResult)
    (p : String) : RunResult :=
  if st.err.isSome then st
  else
    match parsePath env st.fs p with
    | .error e => { st with events := st.events ++ [.parse p], err := some e }
    | .ok m =>
      { events := st.events ++ [.parse p, .remove p, .write p],
        fs := (st.fs.removeFile p).writeFile p (env.render m o),
        err := none }

/-- The loop of `Tidy.inplace` over a list of paths. -/
def inplaceRun {μ : Type} (env : Env μ) (o : TidyOptions) (st : RunResult) :
    List String → RunResult
  | [] => st
  | p :: ps => inplaceRun env o (inplaceStep env o st p) ps

/-- `Tidy.inplace(*paths)` started on a clean state over file system `fs`. -/
def tidyInplace {μ : Type} (env : Env μ) (o : TidyOptions) (fs : FS)
    (paths : List String) : RunResult :=
  inplaceRun env o ⟨[], fs, none⟩ paths

/-- The event sequence of a fully successful `Tidy.inplace` run:
per path, in the order given, parse then remove then write. -/
def canonEvents : List String → List Ev
  | [] => []
  | p :: ps => Ev.parse p :: Ev.remove p :: Ev.write p :: canonEvents ps

/-- `IsPref xs ys`: `xs` is a leading segment of `ys`. -/
def IsPref {α : Type} (xs ys : List α) : Prop :=
  ∃ t, xs ++ t = ys

/-- `str.replace` of a carriage-return/line-feed pair by a line feed,
scanning left to right without overlap. -/
def replCRLF : List Char → List Char
  | '\r' :: '\n' :: rest => '\n' :: replCRLF rest
  | c :: rest => c :: replCRLF rest
  | [] => []

/-- Model of Python `s.replace("\r\n", "\n")`. -/
def pyReplaceCRLF (s : String) : String := String.mk (replCRLF s.data)

/-- `Tidy.file(path, outpath)`: parse the input, render it with the
active options; without an output path the rendered buffer is returned
with carriage-return/line-feed pairs normalized, with an output path the
rendered text is written to that file verbatim and nothing is returned. -/
def tidyFile {μ : Type} (env : Env μ) (o : TidyOptions) (fs : FS)
    (path : String) (outpath : Option String) :
    Except String (FS × Option String) :=
  match parsePath env fs path with
  | .error e => .error e
  | .ok m =>
    let rendered := env.render m o
    match outpath with
    | none => .ok (fs, some (pyReplaceCRLF rendered))
    | some op => .ok (fs.writeFile op rendered, none)

/-- A node of the externally discovered suite structure: a file, or a
directory with an optional init file and an ordered list of children. -/
inductive SNode where
  | file (path : String)
  | dir (initFile : Option String) (children : List SNode)

mutual

/-- The sequence of paths `Tidy.visit_file` / `Tidy.visit_directory`
hand to `Tidy.inplace`, in visiting order: a file node contributes its
path; a directory node contributes its init file, when present, before
the contributions of its children in their given order. -/
def visitOrder : SNode → List String
  | .file p => [p]
  | .dir ini cs => ini.toList ++ visitOrderList cs

/-- Visit order of a list of sibling nodes, left to right. -/
def visitOrderList : List SNode → List String
  | [] => []
  | n :: ns => visitOrder n ++ visitOrderList ns

end

mutual

/-- `SuiteStructure.visit` driving `Tidy`: a file node is routed to the
in-place transform of its path; a directory node transforms its init
file, when present, before visiting its children in order.  A pending
error skips the remaining steps (the exception aborts the walk). -/
def visitRun {μ : Type} (env : Env μ) (o : TidyOptions) (st : RunResult) :
    SNode → RunResult
  | .file p => inplaceStep env o st p
  | .dir ini cs =>
    let st1 := match ini with
      | some i => inplaceStep env o st i
      | none => st
    visitRunList env o st1 cs

/-- Visiting a list of sibling nodes in order. -/
def visitRunList {μ : Type} (env : Env μ) (o : TidyOptions) (st : RunResult) :
    List SNode → RunResult
  | [] => st
  | n :: ns => visitRunList env o (visitRun env o st n) ns

end

/-- `Tidy.directory(path)` after the external discovery collaborator has
produced the suite structure `root`: walk the tree from a clean state. -/
def tidyDirectory {μ : Type} (env : Env μ) (o : TidyOptions) (fs : FS)
    (root : SNode) : RunResult :=
  visitRun env o ⟨[], fs, none⟩ root

mutual

/-- Paths the traversal must produce per the spec: each file once, a
directory's init file (when present) before all of its descendants. -/
def nodeCount : SNode → Nat
  | .file _ => 1
  | .dir ini cs => ini.toList.length + nodeCountList cs

/-- Total path count of a list of sibling nodes. -/
def nodeCountList : List SNode → Nat
  | [] => 0
  | n :: ns => nodeCount n + nodeCountList ns

end

/-- Validated option record produced by `TidyCommandLine.validate`. -/
structure VOpts where
  recursive : Bool
  inplace : Bool
  format : Option String
  lineseparator : String
  spacecount : Option Int
deriving DecidableEq, Repr

/-- `TidyCommandLine.validate` with an execution trace: the list of
sub-validations actually entered, in order, together with the outcome.
A raised `DataError` propagates at once, so later sub-validations are
not entered after a failure. -/
def validateTrace (nativeSep : String) (fs : FS) (args : List String)
    (recursive inplace : Bool) (format lineseparator : String)
    (spacecount : ArgumentValidator.PyVal) :
    List String × Except String VOpts :=
  match ArgumentValidator.mode_and_args fs args recursive inplace with
  | .error e => (["mode"], .error e)
  | .ok (r, i) =>
    match ArgumentValidator.format args format i r with
    | .error e => (["mode", "format"], .error e)
    | .ok f =>
      match ArgumentValidator.line_sep nativeSep lineseparator with
      | .error e => (["mode", "format", "linesep"], .error e)
      | .ok ls =>
        match validateSpacecount spacecount with
        | .error e => (["mode", "format", "linesep", "spacecount"], .error e)
        | .ok sc =>
          (["mode", "format", "linesep", "spacecount"], .ok ⟨r, i, f, ls, sc⟩)

/-- C1: for every pair of booleans (recursive, inplace) and every
argument list, mode_and_args yields exactly the documented outcome: the
(true, true) row always fails with the conflicting-modes error; each
other row succeeds exactly when its documented file-system condition
holds, returning the validated (recursive, inplace) pair, and fails with
an error otherwise. -/
theorem mode_and_args_truth_table (fs : FS) (args : List String) (r i : Bool) :
    (r = true → i = true →
      ArgumentValidator.mode_and_args fs args r i = .error conflictingModesMsg)
  ∧ (ArgumentValidator.mode_and_args fs args r i = .ok (r, i) ↔
      modeOutcomeOk fs args (r, i) = true)
  ∧ (∀ x, ArgumentValidator.mode_and_args fs args r i = .ok x → x = (r, i))
  ∧ (modeOutcomeOk fs args (r, i) = false →
      ∃ e, ArgumentValidator.mode_and_args fs args r i = .error e) := by
  cases r <;> cases i <;>
    simp only [ArgumentValidator.mode_and_args,
      ArgumentValidator.recursiveModeArguments,
      ArgumentValidator.inplaceModeArguments,
      ArgumentValidator.defaultModeArguments, modeOutcomeOk] <;>
    (try split_ifs) <;> (try simp_all) <;> (try omega)

/-- Witness for C1 at a concrete input: recursive mode with exactly one
existing directory is accepted. -/
theorem mode_and_args_truth_table_witness :
    ArgumentValidator.mode_and_args ⟨[], ["d"]⟩ ["d"] true false =
      .ok (true, false) :=
  (mode_and_args_truth_table ⟨[], ["d"]⟩ ["d"] true false).2.1.mpr (by decide)

/-- C10: in inplace mode, validation of an empty argument list succeeds:
the requirement that every path name an existing file is vacuous over an
empty list, and the validator enforces no minimum argument count. -/
theorem inplace_empty_args_valid (fs : FS) :
    ArgumentValidator.mode_and_args fs [] false true = .ok (false, true) := rfl

/-- C4: an explicit (nonempty) format string is uppercased and validated
against TXT/ROBOT, anything else failing with the invalid-format error;
with no explicit format the result is UNSPECIFIED (none) under inplace or
recursive mode or with fewer than two positional arguments, and is
otherwise derived from the second argument's extension suffix, uppercased
and validated against the same set. -/
theorem format_resolution (args : List String) (fmt : String) (i r : Bool) :
    (fmt ≠ "" →
      ArgumentValidator.format args fmt i r =
        (if pyUpper fmt == "TXT" || pyUpper fmt == "ROBOT"
         then .ok (some (pyUpper fmt))
         else .error (invalidFormatMsg (pyUpper fmt))))
  ∧ (fmt = "" → (i = true ∨ r = true ∨ args.length < 2) →
      ArgumentValidator.format args fmt i r = .ok none)
  ∧ (fmt = "" → i = false → r = false → 2 ≤ args.length →
      ArgumentValidator.format args fmt i r =
        (if pyUpper (splitextExt (args.getD 1 "")) == "TXT" ||
            pyUpper (splitextExt (args.getD 1 "")) == "ROBOT"
         then .ok (some (pyUpper (splitextExt (args.getD 1 ""))))
         else .error (invalidFormatMsg (pyUpper (splitextExt (args.getD 1 "")))))) := by
  refine ⟨?_, ?_, ?_⟩
  · intro h
    have hb : (fmt == "") = false := by simpa using h
    simp [ArgumentValidator.format, hb]
  · rintro rfl h
    have hcond : ((i = true ∨ r = true) ∨ args.length < 2) := by tauto
    simp [ArgumentValidator.format, hcond]
  · rintro rfl rfl rfl h
    have h2 : ¬ (args.length < 2) := by omega
    simp [ArgumentValidator.format, h2]

/-- Witness for C4 at the spec's own example: default mode, two
positional arguments and no explicit format resolve to ROBOT from the
second argument's extension. -/
theorem format_resolution_witness :
    ArgumentValidator.format ["a.txt", "b.robot"] "" false false =
      .ok (some "ROBOT") := by
  have h := (format_resolution ["a.txt", "b.robot"] "" false false).2.2
    rfl rfl rfl (by decide)
  rw [h]; decide

/-- C7: a falsy space-count input (absent, integer zero, empty string)
records no override; any truthy input must parse as an integer of at
least 2, failing with the invalid-space-count error otherwise; whenever
validation succeeds with an override the override is at least 2. -/
theorem spacecount_resolution :
    (validateSpacecount .pnone = .ok none)
  ∧ (validateSpacecount (.pint 0) = .ok none)
  ∧ (validateSpacecount (.pstr "") = .ok none)
  ∧ (∀ v : ArgumentValidator.PyVal, v.truthy = true →
      validateSpacecount v =
        (match v.toInt with
         | some n => if n < 2 then .error invalidSpaceCountMsg else .ok (some n)
         | none => .error invalidSpaceCountMsg))
  ∧ (∀ (v : ArgumentValidator.PyVal) (n : Int),
      validateSpacecount v = .ok (some n) → 2 ≤ n) := by
  refine ⟨rfl, rfl, rfl, ?_, ?_⟩
  · intro v hv
    simp only [validateSpacecount, hv, Bool.not_true, Bool.false_eq_true,
      if_false, ArgumentValidator.spacecount]
    cases hi : v.toInt with
    | none => rfl
    | some m => by_cases h2 : m < 2 <;> simp [h2, Except.map]
  · intro v n h
    by_cases hv : v.truthy = true
    · simp only [validateSpacecount, hv, Bool.not_true, Bool.false_eq_true,
        if_false, ArgumentValidator.spacecount] at h
      cases hi : v.toInt with
      | none => simp [hi, Except.map] at h
      | some m =>
        simp only [hi] at h
        by_cases h2 : m < 2 <;> simp [h2, Except.map] at h
        omega
    · simp only [Bool.not_eq_true] at hv
      simp [validateSpacecount, hv] at h

/-- Witness for C7 at a concrete truthy input: the string 4 yields the
override 4. -/
theorem spacecount_resolution_witness :
    validateSpacecount (.pstr "4") = .ok (some 4) := by
  have h := spacecount_resolution.2.2.2.1 (.pstr "4") (by decide)
  rw [h]; decide

/-- C8: the symbolic line-separator name is matched case-insensitively
against native, windows and unix, with an absent value defaulting to
native; unix yields the line feed, windows the carriage-return/line-feed
pair, native the host's native sequence, and any other symbol fails with
the invalid-line-separator error. -/
theorem line_separator_resolution (nativeSep s : String) :
    (s = "" → ArgumentValidator.line_sep nativeSep s = .ok nativeSep)
  ∧ (pyLower s = "native" →
      ArgumentValidator.line_sep nativeSep s = .ok nativeSep)
  ∧ (pyLower s = "windows" →
      ArgumentValidator.line_sep nativeSep s = .ok "\r\n")
  ∧ (pyLower s = "unix" →
      ArgumentValidator.line_sep nativeSep s = .ok "\n")
  ∧ (s ≠ "" → pyLower s ≠ "native" → pyLower s ≠ "windows" →
      pyLower s ≠ "unix" →
      ArgumentValidator.line_sep nativeSep s = .error (invalidLineSepMsg s)) := by
  by_cases hs : s = ""
  · subst hs
    refine ⟨fun _ => ?_, fun h => absurd h (by decide),
      fun h => absurd h (by decide), fun h => absurd h (by decide),
      fun h => absurd rfl h⟩
    have h1 : pyLower "native" = "native" := by decide
    simp [ArgumentValidator.line_sep, h1]
  · have hb : (s == "") = false := by simpa using hs
    refine ⟨fun h => absurd h hs, fun h => ?_, fun h => ?_, fun h => ?_,
      fun _ h2 h3 h4 => ?_⟩
    · simp [ArgumentValidator.line_sep, hb, h]
    · have hn : (pyLower s == "native") = false := by simp [h]
      simp [ArgumentValidator.line_sep, hb, h, hn]
    · have hn : (pyLower s == "native") = false := by simp [h]
      have hw : (pyLower s == "windows") = false := by simp [h]
      simp [ArgumentValidator.line_sep, hb, h, hn, hw]
    · have hn : (pyLower s == "native") = false := by simpa using h2
      have hw : (pyLower s == "windows") = false := by simpa using h3
      have hu : (pyLower s == "unix") = false := by simpa using h4
      simp [ArgumentValidator.line_sep, hb, hn, hw, hu]

/-- Witness for C8 at the spec's own examples: unix, mixed-case Windows
and a bogus symbol. -/
theorem line_separator_resolution_witness :
    ArgumentValidator.line_sep "NATIVE-SEP" "unix" = .ok "\n"
  ∧ ArgumentValidator.line_sep "NATIVE-SEP" "Windows" = .ok "\r\n"
  ∧ ArgumentValidator.line_sep "NATIVE-SEP" "bogus" =
      .error (invalidLineSepMsg "bogus") :=
  ⟨(line_separator_resolution "NATIVE-SEP" "unix").2.2.2.1 (by decide),
   (line_separator_resolution "NATIVE-SEP" "Windows").2.2.1 (by decide),
   (line_separator_resolution "NATIVE-SEP" "bogus").2.2.2.2
     (by decide) (by decide) (by decide) (by decide)⟩

lemma IsPref_nil {α : Type} (ys : List α) : IsPref ([] : List α) ys := ⟨ys, rfl⟩

lemma IsPref_cons3 {α : Type} (a b c : α) (xs ys : List α) (h : IsPref xs ys) :
    IsPref (a :: b :: c :: xs) (a :: b :: c :: ys) := by
  obtain ⟨t, ht⟩ := h
  exact ⟨t, by simp [ht]⟩

lemma inplaceStep_err {μ : Type} (env : Env μ) (o : TidyOptions)
    (st : RunResult) (p : String) (h : st.err.isSome) :
    inplaceStep env o st p = st := by
  simp [inplaceStep, h]

lemma inplaceRun_err {μ : Type} (env : Env μ) (o : TidyOptions) :
    ∀ (ps : List String) (st : RunResult), st.err.isSome →
      inplaceRun env o st ps = st := by
  intro ps
  induction ps with
  | nil => intro st _; rfl
  | cons p ps ih =>
    intro st h
    simp only [inplaceRun, inplaceStep_err env o st p h]
    exact ih st h

lemma inplaceRun_append {μ : Type} (env : Env μ) (o : TidyOptions) :
    ∀ (xs ys : List String) (st : RunResult),
      inplaceRun env o st (xs ++ ys) =
        inplaceRun env o (inplaceRun env o st xs) ys := by
  intro xs
  induction xs with
  | nil => intro ys st; rfl
  | cons x xs ih =>
    intro ys st
    simp only [List.cons_append, inplaceRun]
    exact ih ys (inplaceStep env o st x)

lemma inplaceRun_events {μ : Type} (env : Env μ) (o : TidyOptions) :
    ∀ (ps : List String) (st : RunResult), st.err = none →
      ∃ t, (inplaceRun env o st ps).events = st.events ++ t ∧
        IsPref t (canonEvents ps) ∧
        ((inplaceRun env o st ps).err = none → t = canonEvents ps) := by
  intro ps
  induction ps with
  | nil =>
    intro st _
    exact ⟨[], by simp [inplaceRun], IsPref_nil _, fun _ => rfl⟩
  | cons p ps ih =>
    intro st hst
    have hn : st.err.isSome = false := by simp [hst]
    simp only [inplaceRun]
    cases hp : parsePath env st.fs p with
    | error e =>
      have hstep : inplaceStep env o st p =
          { st with events := st.events ++ [.parse p], err := some e } := by
        simp [inplaceStep, hn, hp]
      rw [hstep, inplaceRun_err env o ps _ (by simp)]
      refine ⟨[Ev.parse p], rfl, ⟨Ev.remove p :: Ev.write p :: canonEvents ps, rfl⟩,
        fun hc => by simp at hc⟩
    | ok m =>
      have hstep : inplaceStep env o st p =
          { events := st.events ++ [.parse p, .remove p, .write p],
            fs := (st.fs.removeFile p).writeFile p (env.render m o),
            err := none } := by
        simp [inplaceStep, hn, hp]
      rw [hstep]
      obtain ⟨t, ht, ⟨u, hu⟩, he⟩ := ih
        { events := st.events ++ [.parse p, .remove p, .write p],
          fs := (st.fs.removeFile p).writeFile p (env.render m o),
          err := none } rfl
      refine ⟨Ev.parse p :: Ev.remove p :: Ev.write p :: t, by simp [ht],
        IsPref_cons3 _ _ _ _ _ ⟨u, hu⟩, fun hc => ?_⟩
      rw [he hc]
      rfl

/-- C2: Tidy.inplace processes the given paths one at a time in the
order given, and for each path parses fully before removing the original
file and only then writes the new file at the same path: the event
sequence of every run is a leading segment of the canonical
parse-remove-write sequence over the paths in order, and equals it
exactly when no error aborts the run. -/
theorem inplace_effect_order {μ : Type} (env : Env μ) (o : TidyOptions)
    (fs : FS) (paths : List String) :
    IsPref (tidyInplace env o fs paths).events (canonEvents paths)
  ∧ ((tidyInplace env o fs paths).err = none →
      (tidyInplace env o fs paths).events = canonEvents paths) := by
  obtain ⟨t, ht, hp, he⟩ :=
    inplaceRun_events env o paths ⟨[], fs, none⟩ rfl
  constructor
  · unfold tidyInplace
    rw [ht]
    simpa using hp
  · intro hc
    unfold tidyInplace
    rw [ht, he hc]
    rfl

/-- Concrete environment for witnesses: parsing fails exactly on the
content BAD, rendering prefixes the parsed content with R. -/
def envA : Env String :=
  ⟨fun c => if c == "BAD" then .error "boom" else .ok c,
   fun m _ => "R" ++ m⟩

/-- Concrete options for witnesses. -/
def optsA : TidyOptions := ⟨"robot", false, 4, "\n"⟩

/-- Concrete file system for witnesses: files a, b, c where b is
malformed. -/
def fsABC : FS := ⟨[("a", "x"), ("b", "BAD"), ("c", "y")], []⟩

/-- Witness for C2 at a concrete input: a run with no parse failures
realizes the full canonical parse-remove-write sequence. -/
theorem inplace_effect_order_witness :
    (tidyInplace envA optsA fsABC ["a", "c"]).events = canonEvents ["a", "c"] :=
  (inplace_effect_order envA optsA fsABC ["a", "c"]).2 (by decide)

lemma find_filter_ne (l : List (String × String)) (p q : String) (h : q ≠ p) :
    (l.filter (fun e => e.1 != p)).find? (fun e => e.1 == q) =
      l.find? (fun e => e.1 == q) := by
  induction l with
  | nil => rfl
  | cons a l ih =>
    by_cases hap : a.1 = p
    · have h1 : (a.1 != p) = false := by simp [hap]
      have h2 : (a.1 == q) = false := by
        rw [hap]
        exact beq_eq_false_iff_ne.mpr (Ne.symm h)
      simp only [List.filter_cons, List.find?_cons, h1, h2, Bool.false_eq_true,
        if_false]
      exact ih
    · have h1 : (a.1 != p) = true := by simp [hap]
      simp only [List.filter_cons, h1, if_true]
      by_cases haq : a.1 = q
      · have h2 : (a.1 == q) = true := by simp [haq]
        simp only [List.find?_cons, h2]
      · have h2 : (a.1 == q) = false := by simp [haq]
        simp only [List.find?_cons, h2]
        exact ih

lemma read_writeFile_self (fs : FS) (p c : String) :
    (fs.writeFile p c).read p = some c := by
  unfold FS.writeFile FS.read
  rw [List.find?_cons_of_pos _ (by simp)]
  rfl

lemma read_writeFile_ne (fs : FS) (p c q : String) (h : q ≠ p) :
    (fs.writeFile p c).read q = fs.read q := by
  unfold FS.writeFile FS.read
  rw [List.find?_cons_of_neg _ (by simp [Ne.symm h]),
      find_filter_ne _ _ _ h]

lemma read_removeFile_ne (fs : FS) (p q : String) (h : q ≠ p) :
    (fs.removeFile p).read q = fs.read q := by
  unfold FS.removeFile FS.read
  rw [find_filter_ne _ _ _ h]

lemma inplaceStep_read_ne {μ : Type} (env : Env μ) (o : TidyOptions)
    (st : RunResult) (p q : String) (h : q ≠ p) :
    (inplaceStep env o st p).fs.read q = st.fs.read q := by
  unfold inplaceStep
  by_cases he : st.err.isSome
  · simp [he]
  · simp only [he, Bool.false_eq_true, if_false]
    cases hp : parsePath env st.fs p with
    | error e => rfl
    | ok m =>
      simp only []
      rw [read_writeFile_ne _ _ _ _ h, read_removeFile_ne _ _ _ h]

lemma inplaceRun_read_notin {μ : Type} (env : Env μ) (o : TidyOptions) :
    ∀ (ps : List String) (st : RunResult) (q : String), q ∉ ps →
      (inplaceRun env o st ps).fs.read q = st.fs.read q := by
  intro ps
  induction ps with
  | nil => intro st q _; rfl
  | cons p ps ih =>
    intro st q hq
    simp only [List.mem_cons, not_or] at hq
    simp only [inplaceRun]
    rw [ih _ _ hq.2, inplaceStep_read_ne env o st p q hq.1]

mutual

theorem visitRun_eq {μ : Type} (env : Env μ) (o : TidyOptions) :
    ∀ (st : RunResult) (n : SNode),
      visitRun env o st n = inplaceRun env o st (visitOrder n)
  | _, .file _ => rfl
  | st, .dir none cs => by
    simp only [visitRun, visitOrder, Option.toList, List.nil_append]
    exact visitRunList_eq env o st cs
  | st, .dir (some i) cs => by
    simp only [visitRun, visitOrder, Option.toList]
    rw [visitRunList_eq env o (inplaceStep env o st i) cs]
    rfl

theorem visitRunList_eq {μ : Type} (env : Env μ) (o : TidyOptions) :
    ∀ (st : RunResult) (ns : List SNode),
      visitRunList env o st ns = inplaceRun env o st (visitOrderList ns)
  | _, [] => rfl
  | st, n :: ns => by
    simp only [visitRunList, visitOrderList]
    rw [visitRunList_eq env o (visitRun env o st n) ns,
        visitRun_eq env o st n, inplaceRun_append]

end

mutual

theorem visitOrder_length : ∀ n : SNode, (visitOrder n).length = nodeCount n
  | .file _ => rfl
  | .dir ini cs => by
    simp only [visitOrder, nodeCount, List.length_append]
    rw [visitOrderList_length cs]

theorem visitOrderList_length :
    ∀ ns : List SNode, (visitOrderList ns).length = nodeCountList ns
  | [] => rfl
  | n :: ns => by
    simp only [visitOrderList, nodeCountList, List.length_append]
    rw [visitOrder_length n, visitOrderList_length ns]

end

/-- C3: the walker's visit is a depth-first pre-order traversal: a file
node is routed to the in-place transform of its path; a directory's init
file, when present, is transformed in place before any of its children;
children are visited in the order the discovery collaborator enumerated
them; the whole walk equals the in-place run over the pre-order path
sequence, and each node is visited exactly once (the sequence's length
is the total count of file and init-file nodes). -/
theorem walker_preorder_routing {μ : Type} (env : Env μ) (o : TidyOptions)
    (st : RunResult) :
    (∀ p, visitRun env o st (.file p) = inplaceStep env o st p)
  ∧ (∀ i cs, visitOrder (.dir (some i) cs) = i :: visitOrderList cs)
  ∧ (∀ n ns, visitOrderList (n :: ns) = visitOrder n ++ visitOrderList ns)
  ∧ (∀ n, visitRun env o st n = inplaceRun env o st (visitOrder n))
  ∧ (∀ n, (visitOrder n).length = nodeCount n)
  ∧ visitOrder (.dir (some "init") [.file "b", .file "a"]) =
      ["init", "b", "a"] :=
  ⟨fun _ => rfl, fun _ _ => rfl, fun _ _ => rfl,
   fun n => visitRun_eq env o st n, visitOrder_length, rfl⟩

/-- C5: Tidy.file without an output path returns the rendered buffer
with every carriage-return/line-feed pair replaced by a line feed and
leaves the file system unchanged; with an output path nothing is
returned and the output file holds the rendered text exactly, with no
such normalization. -/
theorem file_buffer_normalization {μ : Type} (env : Env μ) (o : TidyOptions)
    (fs : FS) (path c : String) (m : μ)
    (hread : fs.read path = some c) (hparse : env.parse c = .ok m) :
    tidyFile env o fs path none = .ok (fs, some (pyReplaceCRLF (env.render m o)))
  ∧ (∀ op, tidyFile env o fs path (some op) =
      .ok (fs.writeFile op (env.render m o), none))
  ∧ (∀ op, (fs.writeFile op (env.render m o)).read op = some (env.render m o)) := by
  have hp : parsePath env fs path = .ok m := by
    simp [parsePath, hread, hparse]
  exact ⟨by simp [tidyFile, hp], fun op => by simp [tidyFile, hp],
    fun op => read_writeFile_self fs op (env.render m o)⟩

/-- Concrete environment for the C5 witness: rendering always yields a
text containing a carriage-return/line-feed pair. -/
def envB : Env Unit := ⟨fun _ => .ok (), fun _ _ => "x\r\ny"⟩

/-- Concrete one-file file system for the C5 witness. -/
def fsIn : FS := ⟨[("in", "src")], []⟩

/-- Witness for C5 at a concrete input: the buffer return is normalized,
the file output is not. -/
theorem file_buffer_normalization_witness :
    tidyFile envB optsA fsIn "in" none = .ok (fsIn, some "x\ny")
  ∧ tidyFile envB optsA fsIn "in" (some "out") =
      .ok (fsIn.writeFile "out" "x\r\ny", none)
  ∧ (fsIn.writeFile "out" "x\r\ny").read "out" = some "x\r\ny" := by
  have h := file_buffer_normalization envB optsA fsIn "in" "src" () rfl rfl
  refine ⟨?_, ?_, ?_⟩
  · rw [h.1]; decide
  · rw [h.2.1 "out"]; rfl
  · exact h.2.2 "out"

/-- C6: a parse failure partway through a multi-file in-place or
recursive run aborts the whole run with that error and no rollback:
every file rewritten before the failure keeps its rewritten state (the
final file system is exactly the state reached before the failing path),
every path not yet processed keeps its original content, and a recursive
walk whose pre-order sequence is the same path list behaves
identically. -/
theorem midrun_failure_no_rollback {μ : Type} (env : Env μ) (o : TidyOptions)
    (fs : FS) (xs ys : List String) (bad e : String)
    (h1 : (tidyInplace env o fs xs).err = none)
    (h2 : parsePath env (tidyInplace env o fs xs).fs bad = .error e) :
    (tidyInplace env o fs (xs ++ bad :: ys)).err = some e
  ∧ (tidyInplace env o fs (xs ++ bad :: ys)).fs = (tidyInplace env o fs xs).fs
  ∧ (∀ q, q ∉ xs → (tidyInplace env o fs (xs ++ bad :: ys)).fs.read q = fs.read q)
  ∧ (∀ root : SNode, visitOrder root = xs ++ bad :: ys →
      tidyDirectory env o fs root = tidyInplace env o fs (xs ++ bad :: ys)) := by
  have hne : (tidyInplace env o fs xs).err.isSome = false := by simp [h1]
  have hstep : inplaceStep env o (tidyInplace env o fs xs) bad =
      { events := (tidyInplace env o fs xs).events ++ [.parse bad],
        fs := (tidyInplace env o fs xs).fs,
        err := some e } := by
    simp [inplaceStep, hne, h2]
  have hsplit : tidyInplace env o fs (xs ++ bad :: ys) =
      { events := (tidyInplace env o fs xs).events ++ [.parse bad],
        fs := (tidyInplace env o fs xs).fs,
        err := some e } := by
    have h3 : tidyInplace env o fs (xs ++ bad :: ys) =
        inplaceRun env o (inplaceStep env o (tidyInplace env o fs xs) bad) ys := by
      unfold tidyInplace
      rw [inplaceRun_append]
      rfl
    rw [h3, hstep, inplaceRun_err env o ys _ (by simp)]
  refine ⟨by rw [hsplit], by rw [hsplit], ?_, ?_⟩
  · intro q hq
    rw [hsplit]
    exact inplaceRun_read_notin env o xs ⟨[], fs, none⟩ q hq
  · intro root hroot
    unfold tidyDirectory tidyInplace
    rw [visitRun_eq, hroot]

/-- Witness for C6 at a concrete input: file a is already rewritten when
b fails to parse; the run aborts with the parse error and files b and c
keep their original content while a stays rewritten. -/
theorem midrun_failure_no_rollback_witness :
    (tidyInplace envA optsA fsABC (["a"] ++ "b" :: ["c"])).err = some "boom"
  ∧ (tidyInplace envA optsA fsABC (["a"] ++ "b" :: ["c"])).fs.read "c" = some "y"
  ∧ (tidyInplace envA optsA fsABC (["a"] ++ "b" :: ["c"])).fs.read "b" = some "BAD"
  ∧ (tidyInplace envA optsA fsABC (["a"] ++ "b" :: ["c"])).fs.read "a" = some "Rx" := by
  have h := midrun_failure_no_rollback envA optsA fsABC ["a"] ["c"] "b" "boom"
    (by decide) (by decide)
  refine ⟨h.1, ?_, ?_, by decide⟩
  · rw [h.2.2.1 "c" (by decide)]; decide
  · rw [h.2.2.1 "b" (by decide)]; decide

lemma validateTrace_shape (nativeSep : String) (fs : FS) (args : List String)
    (r i : Bool) (fmt ls : String) (sc : ArgumentValidator.PyVal) :
    ((validateTrace nativeSep fs args r i fmt ls sc).1 = ["mode"] ∧
      ∃ e, (validateTrace nativeSep fs args r i fmt ls sc).2 = .error e)
  ∨ ((validateTrace nativeSep fs args r i fmt ls sc).1 = ["mode", "format"] ∧
      ∃ e, (validateTrace nativeSep fs args r i fmt ls sc).2 = .error e)
  ∨ ((validateTrace nativeSep fs args r i fmt ls sc).1 =
        ["mode", "format", "linesep"] ∧
      ∃ e, (validateTrace nativeSep fs args r i fmt ls sc).2 = .error e)
  ∨ (validateTrace nativeSep fs args r i fmt ls sc).1 =
      ["mode", "format", "linesep", "spacecount"] := by
  unfold validateTrace
  split
  · exact Or.inl ⟨rfl, _, rfl⟩
  · split
    · exact Or.inr (Or.inl ⟨rfl, _, rfl⟩)
    · split
      · exact Or.inr (Or.inr (Or.inl ⟨rfl, _, rfl⟩))
      · split
        · exact Or.inr (Or.inr (Or.inr rfl))
        · exact Or.inr (Or.inr (Or.inr rfl))

/-- C9 counterexample: with recursive and inplace both set on an empty
argument list, mode resolution fails and only the mode sub-validation is
entered; the format sub-validation (and the later two) never run, so it
is false that all four sub-validations run when an earlier one fails. -/
theorem validate_not_all_run :
    (validateTrace "\n" ⟨[], []⟩ [] true true "" "" .pnone).1 = ["mode"]
  ∧ (validateTrace "\n" ⟨[], []⟩ [] true true "" "" .pnone).2 =
      .error conflictingModesMsg
  ∧ "format" ∉ (validateTrace "\n" ⟨[], []⟩ [] true true "" "" .pnone).1
  ∧ "linesep" ∉ (validateTrace "\n" ⟨[], []⟩ [] true true "" "" .pnone).1
  ∧ "spacecount" ∉ (validateTrace "\n" ⟨[], []⟩ [] true true "" "" .pnone).1 := by
  decide

/-- C9 (amended): the top-level validation short-circuits at the first
failing sub-validation, in the fixed order mode resolution, format,
line separator, space count: the executed list is always a leading
segment of that order, mode resolution is always entered first, a fully
successful validation enters all four, and the format, line-separator
and space-count sub-validations are independent of the file system
(only mode resolution reads it). -/
theorem validate_first_failure_wins (nativeSep : String) (fs : FS)
    (args : List String) (r i : Bool) (fmt ls : String)
    (sc : ArgumentValidator.PyVal) :
    IsPref (validateTrace nativeSep fs args r i fmt ls sc).1
      ["mode", "format", "linesep", "spacecount"]
  ∧ (validateTrace nativeSep fs args r i fmt ls sc).1.head? = some "mode"
  ∧ (∀ v, (validateTrace nativeSep fs args r i fmt ls sc).2 = .ok v →
      (validateTrace nativeSep fs args r i fmt ls sc).1 =
        ["mode", "format", "linesep", "spacecount"])
  ∧ (∀ fs2 : FS,
      ArgumentValidator.mode_and_args fs args r i =
        ArgumentValidator.mode_and_args fs2 args r i →
      validateTrace nativeSep fs args r i fmt ls sc =
        validateTrace nativeSep fs2 args r i fmt ls sc) := by
  have hfs : ∀ fs2 : FS,
      ArgumentValidator.mode_and_args fs args r i =
        ArgumentValidator.mode_and_args fs2 args r i →
      validateTrace nativeSep fs args r i fmt ls sc =
        validateTrace nativeSep fs2 args r i fmt ls sc := by
    intro fs2 heq
    unfold validateTrace
    rw [heq]
  have hs := validateTrace_shape nativeSep fs args r i fmt ls sc
  refine ⟨?_, ?_, ?_, hfs⟩
  · rcases hs with ⟨h, _⟩ | ⟨h, _⟩ | ⟨h, _⟩ | h <;> rw [h]
    · exact ⟨["format", "linesep", "spacecount"], rfl⟩
    · exact ⟨["linesep", "spacecount"], rfl⟩
    · exact ⟨["spacecount"], rfl⟩
    · exact ⟨[], rfl⟩
  · rcases hs with ⟨h, _⟩ | ⟨h, _⟩ | ⟨h, _⟩ | h <;> rw [h] <;> rfl
  · intro v hv
    rcases hs with ⟨h, e, he⟩ | ⟨h, e, he⟩ | ⟨h, e, he⟩ | h
    · rw [hv] at he; cases he
    · rw [hv] at he; cases he
    · rw [hv] at he; cases he
    · exact h

/-- Witness for C9 at a concrete input: a fully valid invocation enters
all four sub-validations. -/
theorem validate_first_failure_wins_witness :
    (validateTrace "\n" ⟨[("f", "x")], []⟩ ["f"] false false "" ""
        (.pstr "4")).1 = ["mode", "format", "linesep", "spacecount"] :=
  (validate_first_failure_wins "\n" ⟨[("f", "x")], []⟩ ["f"] false false "" ""
    (.pstr "4")).2.2.1 ⟨false, false, none, "\n", some 4⟩ (by decide)
